import Mathlib

/-!
Verification of the Outfit Composition Ledger and Image Ingestion Pipeline of
the `outfits` repository (FastAPI/SQLModel application), as a shallow embedding.

The data model follows `outfit_manager/models/__init__.py`; the ledger
operations follow `outfit_manager/routers/outfits.py` (`update_outfit`,
`delete_outfit`); vendor/piece deactivation follows
`outfit_manager/routers/vendors.py` and `outfit_manager/routers/pieces.py`;
the image pipeline follows `outfit_manager/services/image_service.py`.
Database rows are lists of records; a query joining on a key is a filter on
that key; the primary-key lookup `session.get` is `List.find?` on the key.
-/

namespace OutfitManager

/-- Component row (`models/__init__.py`, class `Component`): fields relevant to
the ledger and the catalog guards. `cost` is an unconstrained Python `int`. -/
structure Component where
  comid : Nat
  name : String
  cost : Int
  active : Bool
  vendorid : Option Nat
  piecid : Option Nat
  deriving Repr, DecidableEq

/-- Outfit row (`models/__init__.py`, class `Outfit`). -/
structure Outfit where
  outid : Nat
  totalcost : Int
  active : Bool
  deriving Repr, DecidableEq

/-- Link row (`models/__init__.py`, class `Out2Comp`): the Outfit↔Component
association with its own active flag. `o2cid` is the primary key. -/
structure Link where
  o2cid : Nat
  outid : Nat
  comid : Nat
  active : Bool
  deriving Repr, DecidableEq

/-- The database state shared by the ledger operations. `nextO2cid` models the
autoincrement primary key the store assigns to newly inserted Link rows. -/
structure DB where
  outfits : List Outfit
  components : List Component
  links : List Link
  nextO2cid : Nat
  deriving Repr, DecidableEq

/-- Primary-key lookup `session.get(Outfit, outid)`. -/
def getOutfit (outfits : List Outfit) (oid : Nat) : Option Outfit :=
  outfits.find? (fun o => o.outid == oid)

/-- Primary-key lookup `session.get(Component, comid)`. -/
def getComponent (comps : List Component) (cid : Nat) : Option Component :=
  comps.find? (fun c => c.comid == cid)

/-- The cost recomputation query of `update_outfit` (routers/outfits.py lines
280-285): join Out2Comp with Component on comid, keep rows of this outfit with
an active link and an active component, and sum the component costs. -/
def activeCostSum (links : List Link) (comps : List Component) (oid : Nat) : Int :=
  ((links.filter (fun l => l.outid == oid && l.active)).map (fun l =>
    ((comps.filter (fun c => c.comid == l.comid && c.active)).map Component.cost).sum)).sum

/-- The first reconciliation loop of `update_outfit` (routers/outfits.py lines
259-269): the handler loads all Link rows of the outfit into a dict keyed by
comid (last row wins for a duplicated comid) and flips each dict row's active
flag to `comid ∈ selected`.  A row is in the dict exactly when no later row of
the same outfit has the same comid; rows not in the dict are untouched. -/
def reconcileLinks (oid : Nat) (selected : List Nat) : List Link → List Link
  | [] => []
  | l :: rest =>
    (if l.outid == oid
        && rest.all (fun m => !(m.outid == oid && m.comid == l.comid))
     then { l with active := decide (l.comid ∈ selected) }
     else l) :: reconcileLinks oid selected rest

/-- The creation test of the second loop of `update_outfit` (routers/outfits.py
lines 271-276): a selected comid gets a new Link row only when the outfit has
no Link row for it yet and `session.get(Component, comid)` finds an active
component; otherwise the id is skipped silently. -/
def comidsToCreate (links : List Link) (comps : List Component) (oid : Nat)
    (selected : List Nat) : List Nat :=
  selected.filter (fun cid =>
    links.all (fun l => !(l.outid == oid && l.comid == cid)) &&
    (match getComponent comps cid with
     | some c => c.active
     | none => false))

/-- Insertion of the new active Link rows (`Out2Comp(outid=outid, comid=comid_val,
active=True)`), with primary keys assigned consecutively by the store. -/
def mkNewLinks (oid : Nat) : Nat → List Nat → List Link
  | _, [] => []
  | startId, cid :: rest =>
    { o2cid := startId, outid := oid, comid := cid, active := true } ::
      mkNewLinks oid (startId + 1) rest

/-- The reconciled pre-existing Link rows of one `update_outfit` call; the
selected set is `set(component_ids)`, modelled by `dedup`. -/
def updatedLinks (db : DB) (oid : Nat) (componentIds : List Nat) : List Link :=
  reconcileLinks oid componentIds.dedup db.links

/-- The Link rows one `update_outfit` call inserts. -/
def createdLinks (db : DB) (oid : Nat) (componentIds : List Nat) : List Link :=
  mkNewLinks oid db.nextO2cid (comidsToCreate db.links db.components oid componentIds.dedup)

/-- The full Link table after one `update_outfit` call. -/
def newLinks (db : DB) (oid : Nat) (componentIds : List Nat) : List Link :=
  updatedLinks db oid componentIds ++ createdLinks db oid componentIds

/-- The total cost `update_outfit` recomputes after reconciling: the active
join over the post-reconciliation Link table. -/
def totalAfter (db : DB) (oid : Nat) (componentIds : List Nat) : Int :=
  activeCostSum (newLinks db oid componentIds) db.components oid

/-- The state produced by the membership-reconciliation part of `update_outfit`
(routers/outfits.py lines 258-288): reconcile existing links against the
selected set, create missing links for valid components, then store the total
cost recomputed from the post-reconciliation Link table on the outfit.
Form-field and image handling of the handler touch no ledger state and are
omitted. -/
def setMembersResult (db : DB) (oid : Nat) (componentIds : List Nat) : DB :=
  { db with
    outfits := db.outfits.map (fun x => if x.outid == oid then
        { x with totalcost := totalAfter db oid componentIds } else x),
    links := newLinks db oid componentIds,
    nextO2cid := db.nextO2cid + (createdLinks db oid componentIds).length }

/-- `update_outfit` as a ledger operation (`setMembers` of the specification):
404 when the outfit is missing or inactive (routers/outfits.py lines 218-220),
otherwise the reconciliation result. -/
def setMembers (db : DB) (oid : Nat) (componentIds : List Nat) : Option DB :=
  match getOutfit db.outfits oid with
  | none => none
  | some o => if !o.active then none else some (setMembersResult db oid componentIds)

/-- `delete_outfit` (routers/outfits.py lines 304-316): 404 when the outfit id
is unknown, otherwise soft-delete the outfit and deactivate every still-active
Link row of the outfit; nothing is removed and `totalcost` is not touched. -/
def deleteOutfit (db : DB) (oid : Nat) : Option DB :=
  match getOutfit db.outfits oid with
  | none => none
  | some _ =>
    some { db with
      outfits := db.outfits.map (fun x => if x.outid == oid then { x with active := false } else x),
      links := db.links.map (fun l => if l.outid == oid && l.active then { l with active := false } else l) }

/-- A mutation of the Composition Ledger: the membership update or the outfit
soft-delete, the two writers of Link rows in the routers. -/
def LedgerStep (db db' : DB) : Prop :=
  (∃ oid S, setMembers db oid S = some db') ∨ (∃ oid, deleteOutfit db oid = some db')

/-- Number of Link rows of a given (outfit, component) pair. -/
def pairCount (links : List Link) (o c : Nat) : Nat :=
  links.countP (fun l => l.outid == o && l.comid == c)

/-! ### Image ingestion pipeline (`services/image_service.py`) -/

/-- A decoded PIL image, the result of `Image.open` on the uploaded bytes.
Decoding itself happens in the external PIL library, so the pipeline is
modelled as a function of the input length and the decode outcome. -/
structure PILImage where
  format : String
  mode : String
  width : Nat
  height : Nat
  deriving Repr, DecidableEq

/-- `ImageService.ALLOWED_FORMATS` (services/image_service.py line 8). -/
def ALLOWED_FORMATS : List String := ["JPEG", "PNG", "WEBP"]

/-- `ImageService.MAX_FILE_SIZE`: 5 MiB (line 9). -/
def MAX_FILE_SIZE : Nat := 5 * 1024 * 1024

/-- `ImageService.MAX_IMAGE_SIZE` (line 10). -/
def MAX_IMAGE_SIZE : Nat × Nat := (1200, 1200)

/-- `ImageService.THUMBNAIL_SIZE` (line 11). -/
def THUMBNAIL_SIZE : Nat × Nat := (300, 300)

/-- `ImageService.QUALITY` (line 12). -/
def QUALITY : Nat := 85

/-- PIL's `round_aspect(number, key=lambda n: abs(aspect - n / y))` for the
width branch of `Image.thumbnail`: pick floor or ceil of the exact target
`a / b`, whichever is nearer (ties to floor), then clamp to at least 1.
Nearness to the target width is `abs(aspect - n / y)`, which orders floor and
ceil the same way as distance to `a / b` does. -/
def roundAspectWidth (a b : Nat) : Nat :=
  max (if 2 * a ≤ (a / b + (a + b - 1) / b) * b then a / b else (a + b - 1) / b) 1

/-- PIL's `round_aspect(number, key=lambda n: 0 if n == 0 else abs(aspect - x / n))`
for the height branch of `Image.thumbnail`: the key puts 0 first when floor is 0
(then the clamp raises it to 1); otherwise pick floor or ceil of `a / b` by
nearness of `x / n` to the aspect, which cross-multiplies to
`a * (c + f) ≤ 2 * c * f * b` for preferring floor. -/
def roundAspectHeight (a b : Nat) : Nat :=
  if a / b == 0 then 1
  else max (if a * ((a + b - 1) / b + a / b) ≤ 2 * ((a + b - 1) / b) * (a / b) * b
            then a / b else (a + b - 1) / b) 1

/-- Model of PIL `Image.thumbnail((bw, bh))` (external library): no-op unless
the image exceeds the box, otherwise shrink preserving aspect ratio; the
side compared by `x / y >= aspect` is fixed to the box and the other side is
rounded from the exact aspect-preserving value. -/
def pilThumbnail (box : Nat × Nat) (w h : Nat) : Nat × Nat :=
  if w ≤ box.1 ∧ h ≤ box.2 then (w, h)
  else if box.2 * w ≤ box.1 * h then (roundAspectWidth (box.2 * w) h, box.2)
  else (box.1, roundAspectHeight (box.1 * h) w)

/-- The error classes raised by `validate_and_process_image`: HTTP 413 for an
oversized upload, HTTP 400 "Unsupported image format" for a decodable image
outside the allow-list, HTTP 400 "Invalid image file or processing error" for
bytes PIL cannot decode. -/
inductive ImgError where
  | tooLarge
  | unsupportedFormat
  | invalidImage
  deriving Repr, DecidableEq

/-- The normalized image produced by `validate_and_process_image`: re-encoded
as JPEG at the fixed quality, in RGB, with the post-resize dimensions. -/
structure ProcessedImage where
  format : String
  mode : String
  width : Nat
  height : Nat
  quality : Nat
  deriving Repr, DecidableEq

/-- The RGB conversion step of the pipeline (`image.convert('RGB')` when the
mode differs, services/image_service.py lines 41-42). -/
def rgbConverted (img : PILImage) : PILImage :=
  if img.mode ≠ "RGB" then { img with mode := "RGB" } else img

/-- The resize step (lines 45-46): dimensions shrunk by `Image.thumbnail`
exactly when a dimension exceeds `MAX_IMAGE_SIZE`, untouched otherwise. -/
def normalizedDims (img : PILImage) : Nat × Nat :=
  if img.width > MAX_IMAGE_SIZE.1 ∨ img.height > MAX_IMAGE_SIZE.2 then
    pilThumbnail MAX_IMAGE_SIZE img.width img.height
  else (img.width, img.height)

/-- `ImageService.validate_and_process_image` (services/image_service.py lines
14-60): reject oversized input, reject undecodable input, reject formats
outside `ALLOWED_FORMATS`, convert to RGB, shrink with `Image.thumbnail` when
a dimension exceeds `MAX_IMAGE_SIZE`, and re-encode as JPEG at quality 85. -/
def validate_and_process_image (contentsLen : Nat) (decoded : Option PILImage) :
    Except ImgError ProcessedImage :=
  if contentsLen > MAX_FILE_SIZE then .error .tooLarge
  else
    match decoded with
    | none => .error .invalidImage
    | some img =>
      if img.format ∈ ALLOWED_FORMATS then
        .ok { format := "JPEG", mode := (rgbConverted img).mode,
              width := (normalizedDims (rgbConverted img)).1,
              height := (normalizedDims (rgbConverted img)).2,
              quality := QUALITY }
      else .error .unsupportedFormat

/-- The environment of one `create_thumbnail` call: the input bytes, the
outcome of decoding them with PIL, and the outcome of re-encoding a processed
image (`image.save`); a `none` outcome models the step raising. -/
structure ThumbEnv where
  data : List Nat
  decoded : Option PILImage
  encode : PILImage → Option (List Nat)

/-- `ImageService.create_thumbnail` (services/image_service.py lines 62-83):
decode, convert to RGB, shrink to `THUMBNAIL_SIZE`, re-encode; the whole body
is wrapped in `try`/`except` returning the input bytes on any failure. -/
def create_thumbnail (env : ThumbEnv) : List Nat :=
  match env.decoded with
  | none => env.data
  | some img =>
    match env.encode
        { rgbConverted img with
          width := (pilThumbnail THUMBNAIL_SIZE (rgbConverted img).width
            (rgbConverted img).height).1,
          height := (pilThumbnail THUMBNAIL_SIZE (rgbConverted img).width
            (rgbConverted img).height).2 } with
    | none => env.data
    | some out => out

/-! ### Catalog store guards and creation (`routers/vendors.py`,
`routers/pieces.py`, `models/__init__.py`) -/

/-- Vendor row (`models/__init__.py`, class `Vendor`). -/
structure Vendor where
  venid : Nat
  active : Bool
  deriving Repr, DecidableEq

/-- Piece row (`models/__init__.py`, class `Piece`). -/
structure Piece where
  piecid : Nat
  active : Bool
  deriving Repr, DecidableEq

/-- Error classes of the catalog delete endpoints: HTTP 404, the HTTP 400
"Cannot delete …" referential conflict, and an unhandled exception (HTTP 500). -/
inductive ApiError where
  | notFound
  | conflict
  | internalError
  deriving Repr, DecidableEq

/-- `delete_vendor` (routers/vendors.py lines 195-218): 404 when the vendor id
is unknown; HTTP 400 when any active component references the vendor; else
soft-delete the vendor. -/
def delete_vendor (vendors : List Vendor) (comps : List Component) (venid : Nat) :
    Except ApiError (List Vendor) :=
  match vendors.find? (fun v => v.venid == venid) with
  | none => .error .notFound
  | some _ =>
    let linked := comps.filter (fun c => c.vendorid == some venid && c.active)
    if !linked.isEmpty then .error .conflict
    else .ok (vendors.map (fun v => if v.venid == venid then { v with active := false } else v))

/-- The column names the Component model (`models/__init__.py` lines 52-74)
declares. Python resolves `Component.<attr>` against these; `pieceid` is not
among them (the model spells the piece reference `piecid`). -/
def componentModelFields : List String :=
  ["name", "description", "brand", "cost", "notes", "active", "flag",
   "comid", "vendorid", "piecid", "creation", "modified", "image"]

/-- Value of a component's optional-reference attribute, for the attribute
names the model declares. -/
def componentRefAttr (c : Component) : String → Option Nat
  | "vendorid" => c.vendorid
  | "piecid" => c.piecid
  | _ => none

/-- `delete_piece` (routers/pieces.py lines 192-215): 404 when the piece id is
unknown; then the guard query filters on `Component.pieceid` — an attribute
the Component model does not declare, so evaluating the where-clause raises
`AttributeError` (HTTP 500) before any row is read. The guarded branch below
is what would run if the attribute resolved. -/
def delete_piece (pieces : List Piece) (comps : List Component) (piecid : Nat) :
    Except ApiError (List Piece) :=
  match pieces.find? (fun p => p.piecid == piecid) with
  | none => .error .notFound
  | some _ =>
    if "pieceid" ∉ componentModelFields then .error .internalError
    else
      let linked := comps.filter (fun c => componentRefAttr c "pieceid" == some piecid && c.active)
      if !linked.isEmpty then .error .conflict
      else .ok (pieces.map (fun p => if p.piecid == piecid then { p with active := false } else p))

/-- The fields a caller of component creation supplies
(`models/__init__.py` `ComponentBase`/`ComponentCreate`, lines 52-59 and
76-78): no constraint is declared on `cost` and none on `name`. -/
structure ComponentCreate where
  name : String
  cost : Int
  vendorid : Option Nat := none
  piecid : Option Nat := none
  deriving Repr, DecidableEq

/-- Creation of a Component row from the supplied fields, as `create_component`
does (`setup.py` revisions of routers/components.py): the row is stored as
given, `active` defaulting to true; no field validation is performed anywhere
on this path. -/
def createComponent (nextId : Nat) (f : ComponentCreate) : Component :=
  { comid := nextId, name := f.name, cost := f.cost, active := true,
    vendorid := f.vendorid, piecid := f.piecid }

/-! ### Concrete fixtures for witnesses -/

/-- A concrete database: one active outfit, two active components A and B
(costs 500 and 1000 cents), no links yet. -/
def dbW : DB :=
  { outfits := [{ outid := 1, totalcost := 0, active := true }],
    components :=
      [{ comid := 2, name := "A", cost := 500, active := true, vendorid := none, piecid := none },
       { comid := 3, name := "B", cost := 1000, active := true, vendorid := none, piecid := none }],
    links := [],
    nextO2cid := 10 }

/-- The state `setMembers dbW 1 [2, 3]` produces. -/
def dbW1 : DB :=
  { outfits := [{ outid := 1, totalcost := 1500, active := true }],
    components := dbW.components,
    links := [{ o2cid := 10, outid := 1, comid := 2, active := true },
              { o2cid := 11, outid := 1, comid := 3, active := true }],
    nextO2cid := 12 }

/-- A concrete database with two outfits sharing a component and a historical
inactive link. -/
def dbW2 : DB :=
  { outfits := [{ outid := 1, totalcost := 500, active := true },
                { outid := 2, totalcost := 500, active := true }],
    components := dbW.components,
    links := [{ o2cid := 10, outid := 1, comid := 2, active := true },
              { o2cid := 11, outid := 1, comid := 3, active := false },
              { o2cid := 12, outid := 2, comid := 2, active := true }],
    nextO2cid := 13 }

/-- The state `deleteOutfit dbW2 1` produces. -/
def dbW2del : DB :=
  { outfits := [{ outid := 1, totalcost := 500, active := false },
                { outid := 2, totalcost := 500, active := true }],
    components := dbW.components,
    links := [{ o2cid := 10, outid := 1, comid := 2, active := false },
              { o2cid := 11, outid := 1, comid := 3, active := false },
              { o2cid := 12, outid := 2, comid := 2, active := true }],
    nextO2cid := 13 }

/-! ### Helper lemmas about the ledger primitives -/

theorem and_eq_true_iff {a b : Bool} : (a && b) = true ↔ a = true ∧ b = true := by
  simp

theorem noSame_all_iff (oid c : Nat) (L : List Link) :
    (L.all fun m => !(m.outid == oid && m.comid == c)) = true ↔
      ∀ x ∈ L, ¬(x.outid = oid ∧ x.comid = c) := by
  rw [List.all_eq_true]
  constructor
  · intro h x hx hxc
    have hb := h x hx
    rw [hxc.1, hxc.2] at hb
    simp at hb
  · intro h x hx
    have hn := h x hx
    simp only [Bool.not_eq_true', Bool.and_eq_false_iff, beq_eq_false_iff_ne, ne_eq]
    tauto

theorem find?_map_of_pred {α : Type} (f : α → α) (p : α → Bool)
    (hf : ∀ x, p (f x) = p x) (L : List α) :
    (L.map f).find? p = (L.find? p).map f := by
  induction L with
  | nil => rfl
  | cons a t ih =>
    simp only [List.map_cons]
    by_cases h : p a = true
    · rw [List.find?_cons_of_pos _ (by rw [hf]; exact h), List.find?_cons_of_pos _ h,
        Option.map_some']
    · rw [List.find?_cons_of_neg _ (by rw [hf]; exact h), List.find?_cons_of_neg _ h]
      exact ih

theorem reconcileLinks_all (oid : Nat) (sel : List Nat) (q : Link → Bool)
    (hq : ∀ l b, q { l with active := b } = q l) (L : List Link) :
    (reconcileLinks oid sel L).all q = L.all q := by
  induction L with
  | nil => rfl
  | cons l rest ih =>
    simp only [reconcileLinks, List.all_cons, ih]
    by_cases h : (l.outid == oid
        && rest.all fun m => !(m.outid == oid && m.comid == l.comid)) = true
    · rw [if_pos h, hq]
    · rw [if_neg h]

theorem reconcileLinks_countP (oid : Nat) (sel : List Nat) (q : Link → Bool)
    (hq : ∀ l b, q { l with active := b } = q l) (L : List Link) :
    (reconcileLinks oid sel L).countP q = L.countP q := by
  induction L with
  | nil => rfl
  | cons l rest ih =>
    simp only [reconcileLinks, List.countP_cons, ih]
    by_cases h : (l.outid == oid
        && rest.all fun m => !(m.outid == oid && m.comid == l.comid)) = true
    · rw [if_pos h, hq]
    · rw [if_neg h]

theorem reconcileLinks_mem_key (oid : Nat) (sel : List Nat) (L : List Link) :
    ∀ l ∈ L, ∃ l' ∈ reconcileLinks oid sel L,
      l'.o2cid = l.o2cid ∧ l'.outid = l.outid ∧ l'.comid = l.comid := by
  induction L with
  | nil => intro l h; cases h
  | cons a rest ih =>
    intro l hl
    rcases List.mem_cons.mp hl with rfl | hmem
    · refine ⟨_, List.mem_cons_self _ _, ?_⟩
      by_cases h : (l.outid == oid
          && rest.all fun m => !(m.outid == oid && m.comid == l.comid)) = true
      · rw [if_pos h]; exact ⟨rfl, rfl, rfl⟩
      · rw [if_neg h]; exact ⟨rfl, rfl, rfl⟩
    · obtain ⟨l', hl', hk⟩ := ih l hmem
      exact ⟨l', List.mem_cons_of_mem _ hl', hk⟩

theorem reconcileLinks_active_of_mem (oid : Nat) (sel : List Nat) (L : List Link) (c : Nat)
    (hex : ∃ l ∈ L, l.outid = oid ∧ l.comid = c) :
    ∃ l' ∈ reconcileLinks oid sel L,
      l'.outid = oid ∧ l'.comid = c ∧ l'.active = decide (c ∈ sel) := by
  induction L with
  | nil => obtain ⟨l, h, -⟩ := hex; cases h
  | cons a rest ih =>
    by_cases hrest : ∃ x ∈ rest, x.outid = oid ∧ x.comid = c
    · obtain ⟨l', hl', hk⟩ := ih hrest
      exact ⟨l', List.mem_cons_of_mem _ hl', hk⟩
    · obtain ⟨l, hl, hoid, hcid⟩ := hex
      have hla : l = a := by
        rcases List.mem_cons.mp hl with rfl | hmem
        · rfl
        · exact absurd ⟨l, hmem, hoid, hcid⟩ hrest
      subst hla
      have hallrest : (rest.all fun m => !(m.outid == oid && m.comid == l.comid)) = true := by
        rw [hcid, noSame_all_iff]
        intro x hx hxc
        exact hrest ⟨x, hx, hxc⟩
      have hcond : (l.outid == oid
          && rest.all fun m => !(m.outid == oid && m.comid == l.comid)) = true := by
        rw [Bool.and_eq_true]
        exact ⟨by simpa using hoid, hallrest⟩
      refine ⟨{ l with active := decide (l.comid ∈ sel) }, ?_, hoid, hcid, by rw [hcid]⟩
      show _ ∈ reconcileLinks oid sel (l :: rest)
      simp only [reconcileLinks, if_pos hcond]
      exact List.mem_cons_self _ _

theorem reconcileLinks_eq_self (oid : Nat) (sel : List Nat) (L : List Link)
    (hgood : ∀ l ∈ L, l.outid = oid → l.active = decide (l.comid ∈ sel)) :
    reconcileLinks oid sel L = L := by
  induction L with
  | nil => rfl
  | cons a rest ih =>
    simp only [reconcileLinks]
    rw [ih (fun l hl => hgood l (List.mem_cons_of_mem _ hl))]
    by_cases h : (a.outid == oid
        && rest.all fun m => !(m.outid == oid && m.comid == a.comid)) = true
    · rw [if_pos h]
      have hoid : a.outid = oid := by
        have := (and_eq_true_iff.mp h).1
        simpa using this
      have ha := hgood a (List.mem_cons_self _ _) hoid
      rw [← ha]
    · rw [if_neg h]

theorem reconcileLinks_append_fix (oid : Nat) (sel : List Nat) (C : List Link)
    (hC : ∀ c ∈ C, c.outid = oid → c.active = decide (c.comid ∈ sel)) (L : List Link) :
    reconcileLinks oid sel (reconcileLinks oid sel L ++ C) = reconcileLinks oid sel L ++ C := by
  induction L with
  | nil =>
    simp only [reconcileLinks, List.nil_append]
    exact reconcileLinks_eq_self oid sel C hC
  | cons a rest ih =>
    by_cases h0 : (a.outid == oid
        && rest.all fun m => !(m.outid == oid && m.comid == a.comid)) = true
    · simp only [reconcileLinks, if_pos h0, List.cons_append, List.append_eq]
      rw [ih, ite_self]
    · simp only [reconcileLinks, if_neg h0, List.cons_append, List.append_eq]
      rw [ih]
      have h1 : ¬(a.outid == oid
          && ((reconcileLinks oid sel rest ++ C).all
            fun m => !(m.outid == oid && m.comid == a.comid))) = true := by
        intro h1
        obtain ⟨ho, hall⟩ := and_eq_true_iff.mp h1
        rw [List.all_append] at hall
        obtain ⟨hall1, hall2⟩ := and_eq_true_iff.mp hall
        rw [reconcileLinks_all oid sel (fun m => !(m.outid == oid && m.comid == a.comid))
          (fun l b => rfl) rest] at hall1
        exact h0 (and_eq_true_iff.mpr ⟨ho, hall1⟩)
      rw [if_neg h1]

theorem mkNewLinks_mem (oid : Nat) (s : Nat) (cids : List Nat) :
    ∀ l ∈ mkNewLinks oid s cids, l.outid = oid ∧ l.active = true ∧ l.comid ∈ cids := by
  induction cids generalizing s with
  | nil => intro l h; cases h
  | cons cid rest ih =>
    intro l hl
    rcases List.mem_cons.mp hl with rfl | hmem
    · exact ⟨rfl, rfl, List.mem_cons_self _ _⟩
    · obtain ⟨h1, h2, h3⟩ := ih (s + 1) l hmem
      exact ⟨h1, h2, List.mem_cons_of_mem _ h3⟩

theorem mem_mkNewLinks (oid : Nat) (s : Nat) (cids : List Nat) (cid : Nat) (h : cid ∈ cids) :
    ∃ l ∈ mkNewLinks oid s cids, l.outid = oid ∧ l.comid = cid ∧ l.active = true := by
  induction cids generalizing s with
  | nil => cases h
  | cons c rest ih =>
    rcases List.mem_cons.mp h with rfl | hmem
    · exact ⟨_, List.mem_cons_self _ _, rfl, rfl, rfl⟩
    · obtain ⟨l, hl, hk⟩ := ih (s + 1) hmem
      exact ⟨l, List.mem_cons_of_mem _ hl, hk⟩

theorem mkNewLinks_countP_le_one (oid o c : Nat) (s : Nat) (cids : List Nat)
    (hnd : cids.Nodup) :
    (mkNewLinks oid s cids).countP (fun l => l.outid == o && l.comid == c) ≤ 1 := by
  induction cids generalizing s with
  | nil => simp [mkNewLinks]
  | cons cid rest ih =>
    have hnd' := (List.nodup_cons.mp hnd).2
    have hni := (List.nodup_cons.mp hnd).1
    simp only [mkNewLinks, List.countP_cons]
    by_cases hp : ((oid == o) && (cid == c)) = true
    · obtain ⟨h1, h2⟩ := and_eq_true_iff.mp hp
      have hz : (mkNewLinks oid (s + 1) rest).countP (fun l => l.outid == o && l.comid == c) = 0 := by
        rw [List.countP_eq_zero]
        intro l hl hpl
        obtain ⟨hl1, hl2, hl3⟩ := mkNewLinks_mem oid (s + 1) rest l hl
        obtain ⟨hq1, hq2⟩ := and_eq_true_iff.mp hpl
        have : cid = l.comid := by
          have e1 : cid = c := by simpa using h2
          have e2 : l.comid = c := by simpa using hq2
          rw [e1, e2]
        exact hni (this ▸ hl3)
      simp [hz, hp]
    · have : ((fun l => l.outid == o && l.comid == c)
          ({ o2cid := s, outid := oid, comid := cid, active := true } : Link)) = false := by
        simpa using hp
      simp only [this, if_neg]
      simpa using ih (s + 1) hnd'

theorem mem_comidsToCreate {links : List Link} {comps : List Component} {oid : Nat}
    {sel : List Nat} {cid : Nat} :
    cid ∈ comidsToCreate links comps oid sel ↔
      cid ∈ sel ∧ (links.all fun l => !(l.outid == oid && l.comid == cid)) = true ∧
      (∃ comp, getComponent comps cid = some comp ∧ comp.active = true) := by
  unfold comidsToCreate
  rw [List.mem_filter]
  constructor
  · rintro ⟨hsel, hcond⟩
    obtain ⟨h1, h2⟩ := and_eq_true_iff.mp hcond
    refine ⟨hsel, h1, ?_⟩
    revert h2
    cases hc : getComponent comps cid with
    | none => intro h2; cases h2
    | some comp => intro h2; exact ⟨comp, rfl, h2⟩
  · rintro ⟨hsel, h1, comp, hc, hact⟩
    refine ⟨hsel, and_eq_true_iff.mpr ⟨h1, ?_⟩⟩
    rw [hc]
    exact hact

theorem comidsToCreate_nodup (links : List Link) (comps : List Component) (oid : Nat)
    (sel : List Nat) (h : sel.Nodup) : (comidsToCreate links comps oid sel).Nodup :=
  h.filter _

theorem comidsToCreate_after (db : DB) (oid : Nat) (S : List Nat) :
    comidsToCreate (newLinks db oid S) db.components oid S.dedup = [] := by
  unfold comidsToCreate
  rw [List.filter_eq_nil_iff]
  intro cid hcid hpred
  have hmem : cid ∈ comidsToCreate (newLinks db oid S) db.components oid S.dedup :=
    List.mem_filter.mpr ⟨hcid, hpred⟩
  obtain ⟨hsel, hall, comp, hcomp, hact⟩ := mem_comidsToCreate.mp hmem
  unfold newLinks at hall
  rw [List.all_append] at hall
  obtain ⟨hallU, hallC⟩ := and_eq_true_iff.mp hall
  unfold updatedLinks at hallU
  rw [reconcileLinks_all oid S.dedup (fun l => !(l.outid == oid && l.comid == cid))
    (fun l b => rfl) db.links] at hallU
  have hc1 : cid ∈ comidsToCreate db.links db.components oid S.dedup :=
    mem_comidsToCreate.mpr ⟨hsel, hallU, comp, hcomp, hact⟩
  obtain ⟨l, hl, h1, h2, h3⟩ := mem_mkNewLinks oid db.nextO2cid _ cid hc1
  have := (noSame_all_iff oid cid _).mp hallC l hl
  exact this ⟨h1, h2⟩

theorem createdLinks_good (db : DB) (oid : Nat) (S : List Nat) :
    ∀ c ∈ createdLinks db oid S, c.outid = oid → c.active = decide (c.comid ∈ S.dedup) := by
  intro c hc _
  obtain ⟨h1, h2, h3⟩ := mkNewLinks_mem oid db.nextO2cid _ c hc
  have hmem : c.comid ∈ S.dedup := (mem_comidsToCreate.mp h3).1
  rw [h2]
  simp [hmem]

theorem updatedLinks_after (db : DB) (oid : Nat) (S : List Nat) :
    updatedLinks (setMembersResult db oid S) oid S = newLinks db oid S := by
  have h := reconcileLinks_append_fix oid S.dedup (createdLinks db oid S)
    (createdLinks_good db oid S) db.links
  show reconcileLinks oid S.dedup (setMembersResult db oid S).links = newLinks db oid S
  have hl : (setMembersResult db oid S).links =
      reconcileLinks oid S.dedup db.links ++ createdLinks db oid S := rfl
  rw [hl, h]
  rfl

theorem createdLinks_after (db : DB) (oid : Nat) (S : List Nat) :
    createdLinks (setMembersResult db oid S) oid S = [] := by
  show mkNewLinks oid _ (comidsToCreate (newLinks db oid S) db.components oid S.dedup) = []
  rw [comidsToCreate_after]
  rfl

theorem newLinks_after (db : DB) (oid : Nat) (S : List Nat) :
    newLinks (setMembersResult db oid S) oid S = newLinks db oid S := by
  unfold newLinks
  rw [updatedLinks_after, createdLinks_after, List.append_nil]
  exact rfl

theorem setMembers_eq_some {db : DB} {oid : Nat} {S : List Nat} {db' : DB}
    (h : setMembers db oid S = some db') :
    ∃ o, getOutfit db.outfits oid = some o ∧ o.active = true ∧
      db' = setMembersResult db oid S := by
  unfold setMembers at h
  cases ho : getOutfit db.outfits oid with
  | none => rw [ho] at h; cases h
  | some o =>
    rw [ho] at h
    change (if (!o.active) = true then none else some (setMembersResult db oid S)) = some db' at h
    by_cases ha : o.active = true
    · rw [ha] at h
      simp only [Bool.not_true] at h
      rw [if_neg (by simp)] at h
      exact ⟨o, rfl, ha, (Option.some_inj.mp h).symm⟩
    · rw [Bool.not_eq_true] at ha
      rw [ha] at h
      simp at h

theorem setMembers_eq (db : DB) (oid : Nat) (S : List Nat) (o : Outfit)
    (ho : getOutfit db.outfits oid = some o) (ha : o.active = true) :
    setMembers db oid S = some (setMembersResult db oid S) := by
  unfold setMembers
  rw [ho]
  change (if (!o.active) = true then none else some (setMembersResult db oid S)) = _
  rw [ha]
  simp only [Bool.not_true]
  rw [if_neg (by simp)]

theorem outfitUpd_pres_pred (oid : Nat) (T : Int) (x : Outfit) :
    ((if x.outid == oid then { x with totalcost := T } else x : Outfit).outid == oid) =
      (x.outid == oid) := by
  by_cases h : (x.outid == oid) = true
  · rw [if_pos h]
  · rw [if_neg h]

theorem outfitsMap_idem (oid : Nat) (T : Int) (L : List Outfit) :
    ((L.map fun x => if x.outid == oid then { x with totalcost := T } else x).map
        fun x => if x.outid == oid then { x with totalcost := T } else x) =
      L.map fun x => if x.outid == oid then { x with totalcost := T } else x := by
  induction L with
  | nil => rfl
  | cons a t ih =>
    simp only [List.map_cons, ih, List.cons.injEq, and_true]
    by_cases h : (a.outid == oid) = true
    · rw [if_pos h, if_pos ((outfitUpd_pres_pred oid T a).symm ▸ h)]
    · rw [if_neg h, if_neg h]

theorem getOutfit_setMembersResult (db : DB) (oid : Nat) (S : List Nat) :
    getOutfit (setMembersResult db oid S).outfits oid =
      (getOutfit db.outfits oid).map fun x =>
        if x.outid == oid then { x with totalcost := totalAfter db oid S } else x := by
  show getOutfit (db.outfits.map _) oid = _
  unfold getOutfit
  exact find?_map_of_pred _ _ (fun x => outfitUpd_pres_pred oid _ x) db.outfits

theorem totalAfter_idem (db : DB) (oid : Nat) (S : List Nat) :
    totalAfter (setMembersResult db oid S) oid S = totalAfter db oid S := by
  unfold totalAfter
  have hcomp : (setMembersResult db oid S).components = db.components := rfl
  rw [newLinks_after, hcomp]

theorem setMembersResult_idem (db : DB) (oid : Nat) (S : List Nat) :
    setMembersResult (setMembersResult db oid S) oid S = setMembersResult db oid S := by
  have hdef : ∀ d : DB, setMembersResult d oid S =
      { d with
        outfits := d.outfits.map (fun x => if x.outid == oid then
            { x with totalcost := totalAfter d oid S } else x),
        links := newLinks d oid S,
        nextO2cid := d.nextO2cid + (createdLinks d oid S).length } := fun d => rfl
  rw [hdef (setMembersResult db oid S)]
  simp only [totalAfter_idem, newLinks_after, createdLinks_after, List.length_nil, Nat.add_zero]
  have houtfits : (setMembersResult db oid S).outfits =
      db.outfits.map (fun x => if x.outid == oid then
        { x with totalcost := totalAfter db oid S } else x) := rfl
  have hlinks : (setMembersResult db oid S).links = newLinks db oid S := rfl
  rw [houtfits, outfitsMap_idem]
  exact rfl

theorem pairCount_newLinks (db : DB) (oid : Nat) (S : List Nat) (o c : Nat) :
    pairCount (newLinks db oid S) o c =
      pairCount db.links o c + pairCount (createdLinks db oid S) o c := by
  unfold newLinks pairCount updatedLinks
  rw [List.countP_append]
  congr 1
  exact reconcileLinks_countP oid S.dedup (fun l => l.outid == o && l.comid == c)
    (fun l b => rfl) db.links

theorem pairCount_created_le_one (db : DB) (oid : Nat) (S : List Nat) (o c : Nat) :
    pairCount (createdLinks db oid S) o c ≤ 1 :=
  mkNewLinks_countP_le_one oid o c db.nextO2cid _
    (comidsToCreate_nodup db.links db.components oid S.dedup S.nodup_dedup)

theorem pairCount_created_pos (db : DB) (oid : Nat) (S : List Nat) (o c : Nat)
    (h : 0 < pairCount (createdLinks db oid S) o c) : pairCount db.links o c = 0 := by
  obtain ⟨l, hl, hp⟩ := List.countP_pos_iff.mp h
  obtain ⟨hl1, hl2, hl3⟩ := mkNewLinks_mem oid db.nextO2cid _ l hl
  obtain ⟨hsel, hall, -⟩ := mem_comidsToCreate.mp hl3
  obtain ⟨hp1, hp2⟩ := and_eq_true_iff.mp hp
  have ho : o = oid := by
    have : l.outid = o := by simpa using hp1
    rw [← this, hl1]
  have hc : l.comid = c := by simpa using hp2
  unfold pairCount
  rw [List.countP_eq_zero]
  intro x hx hpx
  obtain ⟨hx1, hx2⟩ := and_eq_true_iff.mp hpx
  refine (noSame_all_iff oid l.comid db.links).mp hall x hx ⟨?_, ?_⟩
  · rw [ho] at hx1; exact of_decide_eq_true hx1
  · rw [← hc] at hx2; exact of_decide_eq_true hx2

theorem linkDeact_countP (oid : Nat) (q : Link → Bool)
    (hq : ∀ l b, q { l with active := b } = q l) (L : List Link) :
    (L.map fun l => if l.outid == oid && l.active then { l with active := false } else l).countP q =
      L.countP q := by
  induction L with
  | nil => rfl
  | cons a t ih =>
    simp only [List.map_cons, List.countP_cons, ih]
    by_cases h : (a.outid == oid && a.active) = true
    · rw [if_pos h, hq]
    · rw [if_neg h]

theorem forall2_map_self {α : Type} (g : α → α) (r : α → α → Prop)
    (h : ∀ a, r a (g a)) (L : List α) : List.Forall₂ r L (L.map g) := by
  induction L with
  | nil => constructor
  | cons a t ih => exact List.Forall₂.cons (h a) ih

theorem deleteOutfit_eq_some {db : DB} {oid : Nat} {db' : DB}
    (h : deleteOutfit db oid = some db') :
    ∃ o, getOutfit db.outfits oid = some o ∧
      db' = { db with
        outfits := db.outfits.map (fun x => if x.outid == oid then { x with active := false } else x),
        links := db.links.map (fun l => if l.outid == oid && l.active then { l with active := false } else l) } := by
  unfold deleteOutfit at h
  cases ho : getOutfit db.outfits oid with
  | none => rw [ho] at h; cases h
  | some o =>
    rw [ho] at h
    exact ⟨o, rfl, (Option.some_inj.mp h).symm⟩

theorem getOutfit_some_beq {outfits : List Outfit} {oid : Nat} {o : Outfit}
    (h : getOutfit outfits oid = some o) : (o.outid == oid) = true := by
  unfold getOutfit at h
  have hb := List.find?_some h
  exact hb

theorem outfitDeact_pres_pred (oid : Nat) (x : Outfit) :
    ((if x.outid == oid then { x with active := false } else x : Outfit).outid == oid) =
      (x.outid == oid) := by
  by_cases h : (x.outid == oid) = true
  · rw [if_pos h]
  · rw [if_neg h]

/-! ### Claim theorems: Composition Ledger -/

/-- C1: after every successful membership update (`setMembers`, the
`update_outfit` reconciliation), the outfit's stored `totalcost` equals the
sum of `cost` over exactly the components joined through Link rows that are
active and whose component is itself active, evaluated on the post-mutation
state. -/
theorem setMembers_totalcost_invariant {db : DB} {oid : Nat} {S : List Nat} {db' : DB}
    (h : setMembers db oid S = some db') :
    ∃ o', getOutfit db'.outfits oid = some o' ∧
      o'.totalcost = activeCostSum db'.links db'.components oid := by
  obtain ⟨o, ho, ha, rfl⟩ := setMembers_eq_some h
  rw [getOutfit_setMembersResult, ho, Option.map_some']
  have hoid : (o.outid == oid) = true := getOutfit_some_beq ho
  refine ⟨_, rfl, ?_⟩
  rw [if_pos hoid]
  exact rfl

/-- Witness for C1 at the concrete database `dbW`: adding components 2 and 3
to outfit 1 stores totalcost 1500, matching the active-join sum. -/
theorem setMembers_totalcost_invariant_witness :
    setMembers dbW 1 [2, 3] = some dbW1 ∧
      ∃ o', getOutfit dbW1.outfits 1 = some o' ∧
        o'.totalcost = activeCostSum dbW1.links dbW1.components 1 :=
  ⟨by decide, setMembers_totalcost_invariant (show setMembers dbW 1 [2, 3] = some dbW1 by decide)⟩

/-- C2: `setMembers` is idempotent: a second call with the same selected set
right after a successful first call maps the post-state to itself, so it
creates no Link row, changes no Link row's active flag, and leaves the stored
totalcost at the value of the first call. -/
theorem setMembers_idempotent {db : DB} {oid : Nat} {S : List Nat} {db' : DB}
    (h : setMembers db oid S = some db') : setMembers db' oid S = some db' := by
  obtain ⟨o, ho, ha, rfl⟩ := setMembers_eq_some h
  have ho' : getOutfit (setMembersResult db oid S).outfits oid =
      some (if (o.outid == oid) = true then { o with totalcost := totalAfter db oid S } else o) := by
    rw [getOutfit_setMembersResult, ho, Option.map_some']
  have hact' : (if (o.outid == oid) = true then
      { o with totalcost := totalAfter db oid S } else o).active = true := by
    by_cases hc : (o.outid == oid) = true
    · rw [if_pos hc]; exact ha
    · rw [if_neg hc]; exact ha
  rw [setMembers_eq _ oid S _ ho' hact', setMembersResult_idem]

/-- Witness for C2 at the concrete database `dbW`. -/
theorem setMembers_idempotent_witness : setMembers dbW1 1 [2, 3] = some dbW1 :=
  setMembers_idempotent (show setMembers dbW 1 [2, 3] = some dbW1 by decide)

/-- C3: every ledger mutation preserves "at most one Link row per
(outfit, component) pair" and deletes no Link row: every pre-existing row
survives with the same primary key, outfit id and component id (only its
active flag may change). -/
theorem ledger_link_row_invariant {db db' : DB} (h : LedgerStep db db') :
    ((∀ o c, pairCount db.links o c ≤ 1) → ∀ o c, pairCount db'.links o c ≤ 1) ∧
    (∀ l ∈ db.links, ∃ l' ∈ db'.links,
      l'.o2cid = l.o2cid ∧ l'.outid = l.outid ∧ l'.comid = l.comid) := by
  rcases h with ⟨oid, S, h⟩ | ⟨oid, h⟩
  · obtain ⟨o, ho, ha, rfl⟩ := setMembers_eq_some h
    constructor
    · intro hinv o' c'
      show pairCount (newLinks db oid S) o' c' ≤ 1
      rw [pairCount_newLinks]
      by_cases hz : pairCount (createdLinks db oid S) o' c' = 0
      · rw [hz, Nat.add_zero]; exact hinv o' c'
      · have h0 := pairCount_created_pos db oid S o' c' (Nat.pos_of_ne_zero hz)
        rw [h0, Nat.zero_add]
        exact pairCount_created_le_one db oid S o' c'
    · intro l hl
      obtain ⟨l', hl', hk⟩ := reconcileLinks_mem_key oid S.dedup db.links l hl
      exact ⟨l', List.mem_append_left _ hl', hk⟩
  · obtain ⟨o, ho, rfl⟩ := deleteOutfit_eq_some h
    constructor
    · intro hinv o' c'
      show (db.links.map _).countP _ ≤ 1
      rw [linkDeact_countP oid (fun l => l.outid == o' && l.comid == c') (fun l b => rfl) db.links]
      exact hinv o' c'
    · intro l hl
      refine ⟨if l.outid == oid && l.active then { l with active := false } else l,
        List.mem_map_of_mem _ hl, ?_⟩
      by_cases hc : (l.outid == oid && l.active) = true
      · rw [if_pos hc]; exact ⟨rfl, rfl, rfl⟩
      · rw [if_neg hc]; exact ⟨rfl, rfl, rfl⟩

/-- Witness for C3 at the concrete database `dbW`. -/
theorem ledger_link_row_invariant_witness :
    ((∀ o c, pairCount dbW.links o c ≤ 1) → ∀ o c, pairCount dbW1.links o c ≤ 1) ∧
    (∀ l ∈ dbW.links, ∃ l' ∈ dbW1.links,
      l'.o2cid = l.o2cid ∧ l'.outid = l.outid ∧ l'.comid = l.comid) :=
  ledger_link_row_invariant (Or.inl ⟨1, [2, 3], show setMembers dbW 1 [2, 3] = some dbW1 by decide⟩)

/-- C4: during reconciliation, a selected component id with no existing Link
row whose component is missing or inactive is skipped silently for that member
only: the call still succeeds, no Link row is created for that id, and every
other selected id whose component is active ends with an active Link row. -/
theorem setMembers_skips_invalid_member {db : DB} {oid : Nat} {S : List Nat} {o : Outfit}
    (ho : getOutfit db.outfits oid = some o) (ha : o.active = true)
    {cid : Nat} (_hmem : cid ∈ S)
    (hnolink : (db.links.all fun l => !(l.outid == oid && l.comid == cid)) = true)
    (hbad : getComponent db.components cid = none ∨
      ∃ comp, getComponent db.components cid = some comp ∧ comp.active = false) :
    ∃ db', setMembers db oid S = some db' ∧
      pairCount db'.links oid cid = 0 ∧
      ∀ cid' ∈ S, (∃ comp, getComponent db.components cid' = some comp ∧ comp.active = true) →
        ∃ l ∈ db'.links, l.outid = oid ∧ l.comid = cid' ∧ l.active = true := by
  refine ⟨setMembersResult db oid S, setMembers_eq db oid S o ho ha, ?_, ?_⟩
  · show pairCount (newLinks db oid S) oid cid = 0
    rw [pairCount_newLinks]
    have h1 : pairCount db.links oid cid = 0 := by
      unfold pairCount
      rw [List.countP_eq_zero]
      intro l hl hp
      obtain ⟨hp1, hp2⟩ := and_eq_true_iff.mp hp
      exact (noSame_all_iff oid cid db.links).mp hnolink l hl
        ⟨by simpa using hp1, by simpa using hp2⟩
    have h2 : pairCount (createdLinks db oid S) oid cid = 0 := by
      unfold pairCount
      rw [List.countP_eq_zero]
      intro l hl hp
      obtain ⟨-, -, hl3⟩ := mkNewLinks_mem oid db.nextO2cid _ l hl
      obtain ⟨-, -, comp, hcomp, hact⟩ := mem_comidsToCreate.mp hl3
      obtain ⟨-, hp2⟩ := and_eq_true_iff.mp hp
      have hcc : l.comid = cid := by simpa using hp2
      rw [hcc] at hcomp
      rcases hbad with hb | ⟨comp', hb, hact'⟩
      · rw [hb] at hcomp; cases hcomp
      · rw [hb] at hcomp
        have : comp' = comp := Option.some_inj.mp hcomp
        rw [this, hact] at hact'
        cases hact'
    rw [h1, h2]
  · rintro cid' hmem' ⟨comp, hcomp, hact⟩
    by_cases hex : ∃ l ∈ db.links, l.outid = oid ∧ l.comid = cid'
    · obtain ⟨l', hl', h1, h2, h3⟩ := reconcileLinks_active_of_mem oid S.dedup db.links cid' hex
      refine ⟨l', List.mem_append_left _ hl', h1, h2, ?_⟩
      rw [h3]
      exact decide_eq_true (List.mem_dedup.mpr hmem')
    · have hall : (db.links.all fun l => !(l.outid == oid && l.comid == cid')) = true :=
        (noSame_all_iff oid cid' db.links).mpr (fun x hx hxc => hex ⟨x, hx, hxc⟩)
      have hc : cid' ∈ comidsToCreate db.links db.components oid S.dedup :=
        mem_comidsToCreate.mpr ⟨List.mem_dedup.mpr hmem', hall, comp, hcomp, hact⟩
      obtain ⟨l, hl, h1, h2, h3⟩ := mem_mkNewLinks oid db.nextO2cid _ cid' hc
      exact ⟨l, List.mem_append_right _ hl, h1, h2, h3⟩

/-- Witness for C4 at the concrete database `dbW`: selected id 5 has no
component row, id 2 has an active component; the call succeeds, creates no
link for 5, and links 2 actively. -/
theorem setMembers_skips_invalid_member_witness :
    ∃ db', setMembers dbW 1 [2, 5] = some db' ∧
      pairCount db'.links 1 5 = 0 ∧
      ∀ cid' ∈ [2, 5], (∃ comp, getComponent dbW.components cid' = some comp ∧ comp.active = true) →
        ∃ l ∈ db'.links, l.outid = 1 ∧ l.comid = cid' ∧ l.active = true :=
  setMembers_skips_invalid_member
    (show getOutfit dbW.outfits 1 = some { outid := 1, totalcost := 0, active := true } by decide)
    (by decide) (show (5 : Nat) ∈ [2, 5] by decide) (by decide) (Or.inl (by decide))

/-- C10: soft-deleting an outfit sets its active flag to false while keeping
its stored totalcost, keeps the component table, and rewrites every Link row
in place: same primary key, outfit id and component id, with the active flag
cleared exactly on the outfit's rows (already-inactive rows and other outfits'
rows keep their value); in particular no Link row is deleted. -/
theorem deleteOutfit_frame_effect {db : DB} {oid : Nat} {db' : DB}
    (h : deleteOutfit db oid = some db') :
    (∀ o, getOutfit db.outfits oid = some o →
      ∃ o', getOutfit db'.outfits oid = some o' ∧ o'.active = false ∧
        o'.totalcost = o.totalcost) ∧
    db'.components = db.components ∧
    List.Forall₂ (fun l l' => l'.o2cid = l.o2cid ∧ l'.outid = l.outid ∧ l'.comid = l.comid ∧
      l'.active = (l.active && !(l.outid == oid))) db.links db'.links := by
  obtain ⟨o0, ho0, rfl⟩ := deleteOutfit_eq_some h
  refine ⟨?_, rfl, ?_⟩
  · intro o ho
    have hmap := find?_map_of_pred
      (fun x => if x.outid == oid then { x with active := false } else x)
      (fun x => x.outid == oid)
      (fun x => outfitDeact_pres_pred oid x)
      db.outfits
    have hoid : (o.outid == oid) = true := getOutfit_some_beq ho
    refine ⟨if (o.outid == oid) = true then { o with active := false } else o, ?_, ?_, ?_⟩
    · show getOutfit (db.outfits.map _) oid = _
      unfold getOutfit at ho ⊢
      rw [hmap, ho, Option.map_some']
    · rw [if_pos hoid]
    · rw [if_pos hoid]
  · refine forall2_map_self _ _ ?_ db.links
    intro a
    by_cases hc : (a.outid == oid && a.active) = true
    · obtain ⟨h1, h2⟩ := and_eq_true_iff.mp hc
      rw [if_pos hc]
      refine ⟨rfl, rfl, rfl, ?_⟩
      show false = (a.active && !(a.outid == oid))
      rw [h1, h2]
      rfl
    · rw [if_neg hc]
      refine ⟨rfl, rfl, rfl, ?_⟩
      by_cases h1 : (a.outid == oid) = true
      · have h2 : a.active = false := by
          by_cases h2 : a.active = true
          · exact absurd (and_eq_true_iff.mpr ⟨h1, h2⟩) hc
          · exact Bool.not_eq_true _ ▸ h2
        rw [h1, h2]
        rfl
      · have h1' : (a.outid == oid) = false := Bool.not_eq_true _ ▸ h1
        rw [h1', Bool.not_false, Bool.and_true]

/-! ### Helper lemmas for the image pipeline arithmetic -/

theorem div_mul_bounds (a b : Nat) (hb : 0 < b) :
    a / b * b ≤ a ∧ a < a / b * b + b := by
  refine ⟨Nat.div_mul_le_self a b, ?_⟩
  have h := (Nat.div_lt_iff_lt_mul hb).mp (Nat.lt_succ_self (a / b))
  calc a < (a / b + 1) * b := h
    _ = a / b * b + b := by rw [Nat.succ_mul]

theorem ceil_mul_bounds (a b : Nat) (hb : 0 < b) :
    a ≤ (a + b - 1) / b * b ∧ (a + b - 1) / b * b ≤ a + b - 1 := by
  refine ⟨?_, Nat.div_mul_le_self _ b⟩
  have h := (div_mul_bounds (a + b - 1) b hb).2
  set t := (a + b - 1) / b * b with ht
  omega

theorem clamp_mul_bounds {a b n : Nat} (h1 : n * b ≤ a + b) (h2 : a ≤ n * b + b) :
    max n 1 * b ≤ a + b ∧ a ≤ max n 1 * b + b := by
  cases n with
  | zero =>
    have hm : max 0 1 = 1 := by decide
    rw [hm]
    constructor <;> omega
  | succ m =>
    have hm : max (m + 1) 1 = m + 1 := by
      rw [Nat.max_eq_left]
      omega
    rw [hm]
    exact ⟨h1, h2⟩

theorem div_le_of_le_mul {a b k : Nat} (hb : 0 < b) (ha : a ≤ k * b) : a / b ≤ k := by
  have h := Nat.div_le_div_right (c := b) ha
  rwa [Nat.mul_div_cancel k hb] at h

theorem ceil_div_le_of_le_mul {a b k : Nat} (hb : 0 < b) (ha : a ≤ k * b) :
    (a + b - 1) / b ≤ k := by
  have h2 : a + b - 1 < (k + 1) * b := by
    have hs : (k + 1) * b = k * b + b := Nat.succ_mul k b
    rw [hs]
    set t := k * b with ht
    omega
  have h3 := (Nat.div_lt_iff_lt_mul hb).mpr h2
  omega

theorem roundAspectWidth_mul_bounds (a b : Nat) (hb : 0 < b) :
    roundAspectWidth a b * b ≤ a + b ∧ a ≤ roundAspectWidth a b * b + b := by
  unfold roundAspectWidth
  have hf := div_mul_bounds a b hb
  have hc := ceil_mul_bounds a b hb
  by_cases h : 2 * a ≤ (a / b + (a + b - 1) / b) * b
  · rw [if_pos h]
    exact clamp_mul_bounds (le_trans hf.1 (Nat.le_add_right a b)) (Nat.le_of_lt hf.2)
  · rw [if_neg h]
    refine clamp_mul_bounds (le_trans hc.2 (by omega)) (le_trans hc.1 (Nat.le_add_right _ b))

theorem roundAspectWidth_le (a b k : Nat) (hb : 0 < b) (ha : a ≤ k * b) (hk : 1 ≤ k) :
    roundAspectWidth a b ≤ k := by
  unfold roundAspectWidth
  have hf : a / b ≤ k := div_le_of_le_mul hb ha
  have hc : (a + b - 1) / b ≤ k := ceil_div_le_of_le_mul hb ha
  by_cases h : 2 * a ≤ (a / b + (a + b - 1) / b) * b
  · rw [if_pos h]
    exact Nat.max_le.mpr ⟨hf, hk⟩
  · rw [if_neg h]
    exact Nat.max_le.mpr ⟨hc, hk⟩

theorem roundAspectHeight_mul_bounds (a b : Nat) (hb : 0 < b) :
    roundAspectHeight a b * b ≤ a + b ∧ a ≤ roundAspectHeight a b * b + b := by
  unfold roundAspectHeight
  have hf := div_mul_bounds a b hb
  have hc := ceil_mul_bounds a b hb
  by_cases h0 : (a / b == 0) = true
  · rw [if_pos h0]
    have hf0 : a / b = 0 := by simpa using h0
    have ha : a < b := by
      have h2 := hf.2
      rw [hf0] at h2
      simpa using h2
    constructor <;> omega
  · rw [if_neg h0]
    by_cases h : a * ((a + b - 1) / b + a / b) ≤ 2 * ((a + b - 1) / b) * (a / b) * b
    · rw [if_pos h]
      exact clamp_mul_bounds (le_trans hf.1 (Nat.le_add_right a b)) (Nat.le_of_lt hf.2)
    · rw [if_neg h]
      exact clamp_mul_bounds (le_trans hc.2 (by omega)) (le_trans hc.1 (Nat.le_add_right _ b))

theorem roundAspectHeight_le (a b k : Nat) (hb : 0 < b) (ha : a ≤ k * b) (hk : 1 ≤ k) :
    roundAspectHeight a b ≤ k := by
  unfold roundAspectHeight
  have hf : a / b ≤ k := div_le_of_le_mul hb ha
  have hc : (a + b - 1) / b ≤ k := ceil_div_le_of_le_mul hb ha
  by_cases h0 : (a / b == 0) = true
  · rw [if_pos h0]
    exact hk
  · rw [if_neg h0]
    by_cases h : a * ((a + b - 1) / b + a / b) ≤ 2 * ((a + b - 1) / b) * (a / b) * b
    · rw [if_pos h]
      exact Nat.max_le.mpr ⟨hf, hk⟩
    · rw [if_neg h]
      exact Nat.max_le.mpr ⟨hc, hk⟩

/-- Witness for C10 at the concrete database `dbW2`. -/
theorem deleteOutfit_frame_effect_witness :
    (∀ o, getOutfit dbW2.outfits 1 = some o →
      ∃ o', getOutfit dbW2del.outfits 1 = some o' ∧ o'.active = false ∧
        o'.totalcost = o.totalcost) ∧
    dbW2del.components = dbW2.components ∧
    List.Forall₂ (fun l l' => l'.o2cid = l.o2cid ∧ l'.outid = l.outid ∧ l'.comid = l.comid ∧
      l'.active = (l.active && !(l.outid == 1))) dbW2.links dbW2del.links :=
  deleteOutfit_frame_effect (show deleteOutfit dbW2 1 = some dbW2del by decide)

/-! ### Claim theorems: Image Ingestion Pipeline -/

theorem pilThumbnail_within (w h : Nat) (hw : w ≤ 1200) (hh : h ≤ 1200) :
    pilThumbnail MAX_IMAGE_SIZE w h = (w, h) := by
  unfold pilThumbnail
  simp only [MAX_IMAGE_SIZE]
  rw [if_pos ⟨hw, hh⟩]

theorem pilThumbnail_downscale (w h : Nat) (hw : 0 < w) (hh : 0 < h)
    (hex : 1200 < w ∨ 1200 < h) :
    max (pilThumbnail MAX_IMAGE_SIZE w h).1 (pilThumbnail MAX_IMAGE_SIZE w h).2 = 1200 ∧
    (pilThumbnail MAX_IMAGE_SIZE w h).1 ≤ w ∧ (pilThumbnail MAX_IMAGE_SIZE w h).2 ≤ h ∧
    (pilThumbnail MAX_IMAGE_SIZE w h).1 * h ≤
      (pilThumbnail MAX_IMAGE_SIZE w h).2 * w + max w h ∧
    (pilThumbnail MAX_IMAGE_SIZE w h).2 * w ≤
      (pilThumbnail MAX_IMAGE_SIZE w h).1 * h + max w h := by
  have hnot : ¬(w ≤ 1200 ∧ h ≤ 1200) := by omega
  unfold pilThumbnail
  simp only [MAX_IMAGE_SIZE]
  rw [if_neg hnot]
  by_cases hcmp : 1200 * w ≤ 1200 * h
  · rw [if_pos hcmp]
    have hcmp' : 1200 * w ≤ 1200 * h := hcmp
    have hwh : w ≤ h := by omega
    have hh1200 : 1200 < h := by omega
    have hb := roundAspectWidth_mul_bounds (1200 * w) h hh
    have hle1200 : roundAspectWidth (1200 * w) h ≤ 1200 :=
      roundAspectWidth_le (1200 * w) h 1200 hh hcmp' (by omega)
    have hlew : roundAspectWidth (1200 * w) h ≤ w := by
      refine roundAspectWidth_le (1200 * w) h w hh ?_ hw
      rw [Nat.mul_comm w h]
      exact Nat.mul_le_mul_right w (Nat.le_of_lt hh1200)
    refine ⟨Nat.max_eq_right hle1200, hlew, Nat.le_of_lt hh1200, ?_, ?_⟩
    · exact le_trans hb.1 (Nat.add_le_add_left (Nat.le_max_right w h) _)
    · exact le_trans hb.2 (Nat.add_le_add_left (Nat.le_max_right w h) _)
  · rw [if_neg hcmp]
    have hcmp' : ¬1200 * w ≤ 1200 * h := hcmp
    have hwh : h < w := by omega
    have hw1200 : 1200 < w := by omega
    have hb := roundAspectHeight_mul_bounds (1200 * h) w hw
    have hle1200 : roundAspectHeight (1200 * h) w ≤ 1200 :=
      roundAspectHeight_le (1200 * h) w 1200 hw (by omega) (by omega)
    have hleh : roundAspectHeight (1200 * h) w ≤ h := by
      refine roundAspectHeight_le (1200 * h) w h hw ?_ hh
      rw [Nat.mul_comm h w]
      exact Nat.mul_le_mul_right h (Nat.le_of_lt hw1200)
    refine ⟨Nat.max_eq_left hle1200, Nat.le_refl 1200 |>.trans (Nat.le_of_lt hw1200), hleh, ?_, ?_⟩
    · exact le_trans hb.2 (Nat.add_le_add_left (Nat.le_max_left w h) _)
    · exact le_trans hb.1 (Nat.add_le_add_left (Nat.le_max_left w h) _)

theorem rgbConverted_width (img : PILImage) : (rgbConverted img).width = img.width := by
  unfold rgbConverted
  split <;> rfl

theorem rgbConverted_height (img : PILImage) : (rgbConverted img).height = img.height := by
  unfold rgbConverted
  split <;> rfl

theorem normalizedDims_rgbConverted (img : PILImage) :
    normalizedDims (rgbConverted img) = normalizedDims img := by
  unfold normalizedDims
  rw [rgbConverted_width, rgbConverted_height]

/-- Reduction of `validate_and_process_image` on a size-compliant input that
decodes to an allowed format: the pipeline succeeds and stores the
RGB-converted mode and the `normalizedDims` dimensions. -/
theorem validate_ok (len : Nat) (img : PILImage) (hlen : len ≤ MAX_FILE_SIZE)
    (hfmt : img.format ∈ ALLOWED_FORMATS) :
    validate_and_process_image len (some img) =
      .ok { format := "JPEG", mode := (rgbConverted img).mode,
            width := (normalizedDims img).1, height := (normalizedDims img).2,
            quality := QUALITY } := by
  unfold validate_and_process_image
  rw [if_neg (by omega : ¬len > MAX_FILE_SIZE)]
  show (if img.format ∈ ALLOWED_FORMATS then _ else _) = _
  rw [if_pos hfmt, normalizedDims_rgbConverted]

theorem normalizedDims_within (img : PILImage)
    (h1 : img.width ≤ 1200) (h2 : img.height ≤ 1200) :
    normalizedDims img = (img.width, img.height) := by
  unfold normalizedDims
  simp only [MAX_IMAGE_SIZE]
  rw [if_neg (by omega)]

/-- C5: for every decodable, size-compliant, allowed-format image the pipeline
succeeds; it keeps the dimensions of an image already within the 1200 cap, and
when a dimension exceeds the cap it shrinks so that the longer output side is
exactly 1200, never upscaling, with the aspect ratio preserved up to the
rounding of one side (the cross products differ by at most one rounding step
of the longer input side). -/
theorem normalize_downscale_bounds (len : Nat) (img : PILImage)
    (hw : 0 < img.width) (hh : 0 < img.height)
    (hlen : len ≤ MAX_FILE_SIZE) (hfmt : img.format ∈ ALLOWED_FORMATS) :
    ∃ out, validate_and_process_image len (some img) = .ok out ∧
      (img.width ≤ 1200 ∧ img.height ≤ 1200 →
        out.width = img.width ∧ out.height = img.height) ∧
      (1200 < img.width ∨ 1200 < img.height →
        max out.width out.height = 1200 ∧
        out.width ≤ img.width ∧ out.height ≤ img.height ∧
        out.width * img.height ≤ out.height * img.width + max img.width img.height ∧
        out.height * img.width ≤ out.width * img.height + max img.width img.height) := by
  refine ⟨_, validate_ok len img hlen hfmt, ?_, ?_⟩
  · rintro ⟨h1, h2⟩
    have hd := normalizedDims_within img h1 h2
    constructor
    · show (normalizedDims img).1 = img.width
      rw [hd]
    · show (normalizedDims img).2 = img.height
      rw [hd]
  · intro hex
    have hd : normalizedDims img = pilThumbnail MAX_IMAGE_SIZE img.width img.height := by
      unfold normalizedDims
      simp only [MAX_IMAGE_SIZE]
      rw [if_pos (by omega)]
    obtain ⟨hm1, hm2, hm3, hm4, hm5⟩ :=
      pilThumbnail_downscale img.width img.height hw hh hex
    rw [← hd] at hm1 hm2 hm3 hm4 hm5
    exact ⟨hm1, hm2, hm3, hm4, hm5⟩

/-- Witness for C5: the 3000×2000 JPEG scenario; the second conjunct computes
the output to be exactly 1200×800. -/
theorem normalize_downscale_bounds_witness :
    (∃ out, validate_and_process_image 0
        (some { format := "JPEG", mode := "RGB", width := 3000, height := 2000 }) = .ok out ∧
      ((3000 : Nat) ≤ 1200 ∧ (2000 : Nat) ≤ 1200 → out.width = 3000 ∧ out.height = 2000) ∧
      ((1200 : Nat) < 3000 ∨ (1200 : Nat) < 2000 →
        max out.width out.height = 1200 ∧ out.width ≤ 3000 ∧ out.height ≤ 2000 ∧
        out.width * 2000 ≤ out.height * 3000 + max 3000 2000 ∧
        out.height * 3000 ≤ out.width * 2000 + max 3000 2000)) ∧
    validate_and_process_image 0
        (some { format := "JPEG", mode := "RGB", width := 3000, height := 2000 }) =
      .ok { format := "JPEG", mode := "RGB", width := 1200, height := 800, quality := 85 } :=
  ⟨normalize_downscale_bounds 0 _ (by decide) (by decide) (by decide) (by decide), by rfl⟩

/-- C6 counterexample: a size-compliant input decoding to a valid GIF is
rejected with the unsupported-format error, and GIF is not in the allow-list
`ALLOWED_FORMATS` of the service. -/
theorem gif_rejected_counterexample :
    validate_and_process_image 0
        (some { format := "GIF", mode := "P", width := 100, height := 100 }) =
      .error .unsupportedFormat ∧ "GIF" ∉ ALLOWED_FORMATS :=
  ⟨by rfl, by decide⟩

/-- C6 (amended): for every size-compliant input, the pipeline rejects
undecodable bytes with the invalid-image error, accepts every image decoding
to a format in the fixed allow-list JPEG/PNG/WEBP, and rejects every image
decoding to a format outside that allow-list (GIF included) with
`UnsupportedFormatError`. -/
theorem normalize_format_allowlist (len : Nat) (hlen : len ≤ MAX_FILE_SIZE) :
    validate_and_process_image len none = .error .invalidImage ∧
    (∀ img : PILImage, img.format ∈ ALLOWED_FORMATS →
      ∃ out, validate_and_process_image len (some img) = .ok out) ∧
    (∀ img : PILImage, img.format ∉ ALLOWED_FORMATS →
      validate_and_process_image len (some img) = .error .unsupportedFormat) := by
  refine ⟨?_, ?_, ?_⟩
  · unfold validate_and_process_image
    rw [if_neg (by omega : ¬len > MAX_FILE_SIZE)]
  · intro img hfmt
    exact ⟨_, validate_ok len img hlen hfmt⟩
  · intro img hfmt
    unfold validate_and_process_image
    rw [if_neg (by omega : ¬len > MAX_FILE_SIZE)]
    show (if img.format ∈ ALLOWED_FORMATS then _ else _) = _
    rw [if_neg hfmt]

/-- Witness for C6's amended theorem at input length 0. -/
theorem normalize_format_allowlist_witness :
    validate_and_process_image 0 none = .error .invalidImage ∧
    (∀ img : PILImage, img.format ∈ ALLOWED_FORMATS →
      ∃ out, validate_and_process_image 0 (some img) = .ok out) ∧
    (∀ img : PILImage, img.format ∉ ALLOWED_FORMATS →
      validate_and_process_image 0 (some img) = .error .unsupportedFormat) :=
  normalize_format_allowlist 0 (by decide)

/-- C7: `create_thumbnail` never propagates an error: when decoding the input
fails, or when every re-encode attempt fails, the input bytes are returned
unchanged (the handler's `except` path). -/
theorem create_thumbnail_error_fallback (env : ThumbEnv)
    (h : env.decoded = none ∨ ∀ pi, env.encode pi = none) :
    create_thumbnail env = env.data := by
  unfold create_thumbnail
  rcases h with hd | he
  · rw [hd]
  · cases hdec : env.decoded with
    | none => rfl
    | some img => simp only [he]

/-- Witness for C7: a failing decoder returns the input unchanged. -/
theorem create_thumbnail_error_fallback_witness :
    create_thumbnail { data := [7, 7, 7], decoded := none, encode := fun _ => none } =
      [7, 7, 7] :=
  create_thumbnail_error_fallback _ (Or.inl rfl)

/-! ### Claim theorems: Catalog Store guards and creation -/

/-- C8 evaluated at concrete inputs: `delete_vendor` raises the conflict error
when an active component references the vendor and deactivates the vendor when
none does, exactly as claimed; `delete_piece`, however, fails with an internal
error even on its intended success path (a piece with no referencing
components), because its guard query names `Component.pieceid`, an attribute
the Component model does not declare. -/
theorem delete_piece_attribute_bug :
    delete_vendor [{ venid := 1, active := true }]
        [{ comid := 2, name := "A", cost := 500, active := true,
           vendorid := some 1, piecid := none }] 1 = .error .conflict ∧
    delete_vendor [{ venid := 1, active := true }] [] 1 =
      .ok [{ venid := 1, active := false }] ∧
    delete_piece [{ piecid := 1, active := true }] [] 1 = .error .internalError ∧
    "pieceid" ∉ componentModelFields :=
  ⟨by rfl, by rfl, by rfl, by decide⟩

/-- C9 counterexample: `createComponent` accepts an empty name together with a
negative cost: the Component row is created (no error is possible on this
path) and stores cost -5 < 0, active=true. -/
theorem createComponent_no_validation_counterexample :
    createComponent 7 { name := "", cost := -5 } =
      { comid := 7, name := "", cost := -5, active := true,
        vendorid := none, piecid := none } ∧
    (createComponent 7 { name := "", cost := -5 }).cost < 0 :=
  ⟨rfl, by decide⟩

/-- C9 (amended): component creation performs no field validation: any name
(empty included) and any cost (negative included) are stored exactly as given,
and every created row has active=true. -/
theorem createComponent_unvalidated (nextId : Nat) (f : ComponentCreate) :
    (createComponent nextId f).active = true ∧
    (createComponent nextId f).cost = f.cost ∧
    (createComponent nextId f).name = f.name :=
  ⟨rfl, rfl, rfl⟩

end OutfitManager
